import Mathlib

/-! Shallow embedding of the decision-stabilization and speech-delivery core of
the blind-shopping-assistant repository: `app/logic/aggregator.py`,
`app/logic_module.py` and `app/voice/speech_module.py`.

Modelling conventions:
* Python floats are idealized as rationals (`ℚ`); monotonic time is a rational.
* Bounding boxes carry integer pixel coordinates (`ℤ`).
* Stateful objects become explicit state records threaded through the
  operations; each Python method becomes a pure Lean function from the old
  state (plus arguments, plus the current time where the method reads the
  clock) to the new state and result.
* A Python call that raises is modelled with `Except`.
-/

/-- Configuration constant `CONF_THRESHOLD = 0.4` from `app/config.py`. -/
def CONF_THRESHOLD : ℚ := 2/5

/-- Configuration constant `VOTE_N = 10` from `app/config.py`. -/
def VOTE_N : ℕ := 10

/-- Configuration constant `VOTE_MIN = 7` from `app/config.py`. -/
def VOTE_MIN : ℕ := 7

/-- Axis-aligned bounding box `(x1, y1, x2, y2)` in integer pixel coordinates,
as the 4-tuples carried by `Detection.bbox` in `app/common.py`. -/
structure Box where
  x1 : ℤ
  y1 : ℤ
  x2 : ℤ
  y2 : ℤ
deriving DecidableEq

/-- The frozen dataclass `Detection` from `app/common.py`. -/
structure Detection where
  label : String
  conf : ℚ
  bbox : Box
deriving DecidableEq

/-- The frozen dataclass `Decision` from `app/common.py`. -/
structure Decision where
  text_to_say : String
  debug_text : String
  conf : ℚ
deriving DecidableEq

/-- State of a `VoteAggregator` (`app/logic/aggregator.py`): the contents of
the bounded `deque`, oldest entry first, together with its capacity. -/
structure VoteAggregator where
  maxlen : ℕ
  buffer : List String
deriving DecidableEq

/-- Method `VoteAggregator.add`: `deque(maxlen=m).append(label)` appends on the
right and, when the deque is full, evicts from the left, so the new buffer is
the suffix of length `maxlen` of `buffer ++ [label]`. -/
def VoteAggregator.add (a : VoteAggregator) (label : String) : VoteAggregator :=
  { a with buffer := (a.buffer ++ [label]).drop (a.buffer.length + 1 - a.maxlen) }

/-- Distinct elements of a list in first-encounter order: the iteration order
of the Python `Counter`/`dict` built while counting the list.  The `seen`
accumulator holds the labels already emitted. -/
def uniqueInOrderAux (seen : List String) : List String → List String
  | [] => []
  | x :: xs =>
    if x ∈ seen then uniqueInOrderAux seen xs
    else x :: uniqueInOrderAux (seen ++ [x]) xs

/-- Distinct elements of a list in first-encounter order. -/
def uniqueInOrder (l : List String) : List String :=
  uniqueInOrderAux [] l

/-- Left fold picking the element with the strictly largest key; on ties the
earlier element is kept, matching Python `max(..., key=...)` and the
tie-breaking of `Counter.most_common` (both keep the first, in iteration
order, among equal counts). -/
def pickFold (f : String → ℕ) (b : String) (xs : List String) : String :=
  xs.foldl (fun best y => if f best < f y then y else best) b

/-- Python `max(items, key=f)` over a list given in iteration order: `none` on
the empty list (where Python would raise), otherwise the first element
attaining the maximal key. -/
def pickMaxBy (f : String → ℕ) : List String → Option String
  | [] => none
  | x :: xs => some (pickFold f x xs)

/-- Method `VoteAggregator.majority`: below `min_votes` buffered entries the
answer is `none`; otherwise the most common label (`Counter.most_common(1)`)
is returned when its count reaches `min_votes`.  The inner `none` branch of
the `match` corresponds to `most_common(1)[0]` on an empty buffer, which is
unreachable whenever `1 ≤ min_votes` because the length guard fires first. -/
def VoteAggregator.majority (a : VoteAggregator) (min_votes : ℕ) : Option String :=
  if a.buffer.length < min_votes then none
  else
    match pickMaxBy (fun l => a.buffer.count l) (uniqueInOrder a.buffer) with
    | none => none
    | some label => if min_votes ≤ a.buffer.count label then some label else none

/-- Method `VoteAggregator.last`. -/
def VoteAggregator.last (a : VoteAggregator) : Option String :=
  a.buffer.getLast?

/-- Method `VoteAggregator.clear`. -/
def VoteAggregator.clear (a : VoteAggregator) : VoteAggregator :=
  { a with buffer := [] }

/-- Mutable state of `DecisionEngine` (`app/logic_module.py`).  The obstacle
cooldown fields are omitted: the only method using them, `_obstacle`, is
commented out in the source. -/
structure DecisionEngine where
  label_votes_identify : VoteAggregator
  label_votes_count : VoteAggregator
  conf_history_identify : List ℚ
deriving DecidableEq

/-- State built by `DecisionEngine.__init__`. -/
def DecisionEngine.init : DecisionEngine :=
  { label_votes_identify := { maxlen := VOTE_N, buffer := [] }
    label_votes_count := { maxlen := VOTE_N, buffer := [] }
    conf_history_identify := [] }

/-- Method `DecisionEngine._uncertain`: wrap a reason into a `Decision` with
confidence 0 (the logging side effect is irrelevant to the state). -/
def DecisionEngine.uncertain (reason : String) : Decision :=
  { text_to_say := reason, debug_text := reason, conf := 0 }

/-- Method `DecisionEngine._smoothed_conf_identify`: append the new confidence
to the history, pop the front when the window of 5 is exceeded, and return the
arithmetic mean of the window together with the updated engine state. -/
def DecisionEngine.smoothed_conf_identify (e : DecisionEngine) (new_conf : ℚ) :
    ℚ × DecisionEngine :=
  let h0 := e.conf_history_identify ++ [new_conf]
  let h := if 5 < h0.length then h0.drop 1 else h0
  (h.sum / (h.length : ℚ), { e with conf_history_identify := h })

/-- Method `DecisionEngine._has_significant_overlap`: intersection-over-union
of two boxes compared strictly against the threshold; non-positive
intersection or union area yields `false` without dividing. -/
def DecisionEngine.has_significant_overlap (bbox1 bbox2 : Box) (threshold : ℚ) : Bool :=
  let x1 := max bbox1.x1 bbox2.x1
  let y1 := max bbox1.y1 bbox2.y1
  let x2 := min bbox1.x2 bbox2.x2
  let y2 := min bbox1.y2 bbox2.y2
  let inter_w := max 0 (x2 - x1)
  let inter_h := max 0 (y2 - y1)
  let inter_area : ℚ := ((inter_w * inter_h : ℤ) : ℚ)
  if inter_area ≤ 0 then false
  else
    let area1 : ℚ := ((max 0 (bbox1.x2 - bbox1.x1) * max 0 (bbox1.y2 - bbox1.y1) : ℤ) : ℚ)
    let area2 : ℚ := ((max 0 (bbox2.x2 - bbox2.x1) * max 0 (bbox2.y2 - bbox2.y1) : ℤ) : ℚ)
    let union_area := area1 + area2 - inter_area
    if union_area ≤ 0 then false
    else if threshold < inter_area / union_area then true else false

/-- Intersection-over-union value computed exactly as in
`DecisionEngine._has_significant_overlap`, with value 0 in the branches where
that method returns `false` without comparing (non-positive intersection or
union area). -/
def iouQ (bbox1 bbox2 : Box) : ℚ :=
  let x1 := max bbox1.x1 bbox2.x1
  let y1 := max bbox1.y1 bbox2.y1
  let x2 := min bbox1.x2 bbox2.x2
  let y2 := min bbox1.y2 bbox2.y2
  let inter_w := max 0 (x2 - x1)
  let inter_h := max 0 (y2 - y1)
  let inter_area : ℚ := ((inter_w * inter_h : ℤ) : ℚ)
  if inter_area ≤ 0 then 0
  else
    let area1 : ℚ := ((max 0 (bbox1.x2 - bbox1.x1) * max 0 (bbox1.y2 - bbox1.y1) : ℤ) : ℚ)
    let area2 : ℚ := ((max 0 (bbox2.x2 - bbox2.x1) * max 0 (bbox2.y2 - bbox2.y1) : ℤ) : ℚ)
    let union_area := area1 + area2 - inter_area
    if union_area ≤ 0 then 0
    else inter_area / union_area

/-- Method `DecisionEngine._position`: horizontal third of the frame hit by
the box center.  `frame_shape` is the `(height, width, channels)` tuple. -/
def DecisionEngine.position (bbox : Box) (frame_shape : ℤ × ℤ × ℤ) : String :=
  let width := frame_shape.2.1
  let center_x : ℚ := ((bbox.x1 + bbox.x2 : ℤ) : ℚ) / 2
  if center_x < (width : ℚ) / 3 then "links"
  else if 2 * (width : ℚ) / 3 < center_x then "rechts"
  else "mitte"

/-- Method `DecisionEngine._spoken_position`. -/
def DecisionEngine.spoken_position (position : String) : String :=
  if position = "links" then "links vor dir"
  else if position = "rechts" then "rechts vor dir"
  else "direkt vor dir"

/-- Ambiguity test inside `DecisionEngine._identify`: with at least two sorted
detections, the top two having a confidence gap below 0.05 and different
labels counts as ambiguous. -/
def ambiguousTop (top : Detection) (rest : List Detection) : Bool :=
  match rest with
  | [] => false
  | second :: _ =>
    if top.conf - second.conf < 1/20 ∧ top.label ≠ second.label then true else false

/-- Stable insertion into a descending-confidence list: the inserted element
goes before the first strictly smaller or equal-confidence element only when
its confidence is strictly larger, and before equal confidences only when it
preceded them, matching the stability of Python `sorted(..., reverse=True)`. -/
def insertByConfDesc (d : Detection) : List Detection → List Detection
  | [] => [d]
  | x :: xs => if x.conf ≤ d.conf then d :: x :: xs else x :: insertByConfDesc d xs

/-- Python `sorted(detections, key=conf, reverse=True)`: a stable sort by
descending confidence. -/
def sortByConfDesc : List Detection → List Detection
  | [] => []
  | x :: xs => insertByConfDesc x (sortByConfDesc xs)

/-- Body of `DecisionEngine._identify` after the emptiness guard, taking the
already confidence-sorted detections. -/
def DecisionEngine.identifyCore (e : DecisionEngine) (sorted : List Detection)
    (frame_shape : ℤ × ℤ × ℤ) : Decision × DecisionEngine :=
  match sorted with
  | [] => (DecisionEngine.uncertain "Kein Produkt im Bild", e)
  | top :: rest =>
    if ambiguousTop top rest then
      (DecisionEngine.uncertain
        "Mehrere Produkte erkannt, bitte nur ein Produkt ins Bild halten", e)
    else
      let sm := DecisionEngine.smoothed_conf_identify e top.conf
      let smoothed_conf := sm.1
      let e1 := sm.2
      if smoothed_conf < CONF_THRESHOLD - 1/20 then
        (DecisionEngine.uncertain "Unsicher, Kamera näher an das Produkt halten", e1)
      else
        let votes := e1.label_votes_identify.add top.label
        let e2 := { e1 with label_votes_identify := votes }
        match votes.majority VOTE_MIN with
        | none => (DecisionEngine.uncertain "Unsicher, bitte Kamera ruhiger halten", e2)
        | some stable_label =>
          let position := DecisionEngine.position top.bbox frame_shape
          let pos_text := DecisionEngine.spoken_position position
          ({ text_to_say := stable_label ++ " " ++ pos_text,
             debug_text := "Identify " ++ stable_label ++ " raw=" ++ top.label
               ++ " " ++ position,
             conf := smoothed_conf }, e2)

/-- Method `DecisionEngine._identify`.  Debug strings elide the Python float
formatting (irrelevant to the spoken contract). -/
def DecisionEngine.identify (e : DecisionEngine) (detections : List Detection)
    (frame_shape : ℤ × ℤ × ℤ) : Decision × DecisionEngine :=
  if detections.isEmpty then (DecisionEngine.uncertain "Kein Produkt im Bild", e)
  else DecisionEngine.identifyCore e (sortByConfDesc detections) frame_shape

/-- One step of the duplicate-reduction loop in `DecisionEngine._count`: the
detection is appended to the accumulator exactly when it overlaps no
already-kept detection above IoU 0.5 and its confidence reaches
`CONF_THRESHOLD`. -/
def countFilterStep (filtered : List Detection) (det : Detection) : List Detection :=
  let is_duplicate := filtered.any fun existing =>
    DecisionEngine.has_significant_overlap det.bbox existing.bbox (1/2)
  if is_duplicate = false ∧ CONF_THRESHOLD ≤ det.conf then filtered ++ [det]
  else filtered

/-- The duplicate-reduction loop of `DecisionEngine._count`: fold the filter
step over the detections sorted by descending confidence. -/
def countFilter (detections : List Detection) : List Detection :=
  (sortByConfDesc detections).foldl countFilterStep []

/-- Python `max(label_counts.items(), key=count)[0]` over the insertion-ordered
tally dict of `DecisionEngine._count`: the first label, in order of first
occurrence, attaining the maximal count (`""` only for an empty list, where
Python would raise). -/
def dominantLabel (labels : List String) : String :=
  (pickMaxBy (fun l => labels.count l) (uniqueInOrder labels)).getD ""

/-- Method `DecisionEngine._count`. -/
def DecisionEngine.count (e : DecisionEngine) (detections : List Detection) :
    Decision × DecisionEngine :=
  if detections.isEmpty then (DecisionEngine.uncertain "Keine Produkte im Bild", e)
  else
    let filtered := countFilter detections
    if filtered.isEmpty then
      (DecisionEngine.uncertain
        "Unsicher beim Zählen, bitte Kamera näher an die Produkte halten", e)
    else
      let labels := filtered.map Detection.label
      let dominant_label := dominantLabel labels
      let votes := e.label_votes_count.add dominant_label
      let e1 := { e with label_votes_count := votes }
      let stable_label := votes.majority VOTE_MIN
      let chosen_label :=
        match stable_label with
        | some s => if 0 < labels.count s then s else dominant_label
        | none => dominant_label
      let cnt := labels.count chosen_label
      if cnt = 0 then
        (DecisionEngine.uncertain
          "Unsicher beim Zaehlen, bitte leicht die Perspektive aendern", e1)
      else
        ({ text_to_say := toString cnt ++ " " ++ chosen_label,
           debug_text := "Count " ++ chosen_label ++ ": " ++ toString cnt,
           conf := if stable_label.isSome = true then 1 else 3/5 }, e1)

/-- Method `DecisionEngine.decide`.  The source dispatches mode `"obstacle"`
to `self._obstacle(...)`, but the whole `_obstacle` method is commented out in
`app/logic_module.py`, so that call raises `AttributeError` at runtime; the
raise is modelled as `Except.error`. -/
def DecisionEngine.decide (e : DecisionEngine) (mode : String)
    (detections : List Detection) (frame_shape : ℤ × ℤ × ℤ) :
    Except String (Decision × DecisionEngine) :=
  if mode = "identify" then Except.ok (DecisionEngine.identify e detections frame_shape)
  else if mode = "count" then Except.ok (DecisionEngine.count e detections)
  else if mode = "obstacle" then
    Except.error "AttributeError: DecisionEngine has no attribute _obstacle"
  else Except.ok ({ text_to_say := "", debug_text := "Idle", conf := 0 }, e)

/-- Intermediate value of `DecisionEngine._count` on a frame whose filtered
detection set is non-empty: the spoken label of that frame, namely the stable
majority label when it also occurs in the frame's tally, and the frame's
dominant label otherwise. -/
def countChosenLabel (e : DecisionEngine) (detections : List Detection) : String :=
  let labels := (countFilter detections).map Detection.label
  let dominant_label := dominantLabel labels
  let stable_label := (e.label_votes_count.add dominant_label).majority VOTE_MIN
  match stable_label with
  | some s => if 0 < labels.count s then s else dominant_label
  | none => dominant_label

/-- Whitespace test of Python `str.strip()` (the ASCII whitespace characters;
exotic unicode spaces are not produced by this application). -/
def isSpaceChar (c : Char) : Bool :=
  if c = ' ' ∨ c = '\t' ∨ c = '\n' ∨ c = '\r' ∨ c = '\x0b' ∨ c = '\x0c' then true
  else false

/-- Python `str.strip()`: drop leading and trailing whitespace. -/
def pyStrip (s : String) : String :=
  String.mk (((s.data.dropWhile isSpaceChar).reverse.dropWhile isSpaceChar).reverse)

/-- The frozen dataclass `SpeechConfig` from `app/voice/speech_module.py`
(voice-selection fields, which only affect the external engine, omitted). -/
structure SpeechConfig where
  cooldown_seconds : ℚ
  queue_maxsize : ℕ
deriving DecidableEq

/-- Defaults of `SpeechConfig`: cooldown 2.0 seconds, queue capacity 30. -/
def defaultSpeechConfig : SpeechConfig :=
  { cooldown_seconds := 2, queue_maxsize := 30 }

/-- Coordinator state of `SpeechEngine` (`app/voice/speech_module.py`): the
bounded queue of `(text, enqueue-timestamp)` entries, the shutdown event, and
the single-writer last-spoken snapshot.  The external pyttsx3 handle carries
no coordinator-visible state and is omitted. -/
structure SpeechEngine where
  config : SpeechConfig
  queue : List (String × ℚ)
  shutdownRequested : Bool
  last_spoken : Option String
  last_spoken_ts : ℚ
deriving DecidableEq

/-- State built by `SpeechEngine.__init__`. -/
def SpeechEngine.mk0 (config : SpeechConfig) : SpeechEngine :=
  { config := config, queue := [], shutdownRequested := false
    last_spoken := none, last_spoken_ts := 0 }

/-- Method `SpeechEngine.can_speak` at monotonic time `now`: true iff no
shutdown is in progress and the cooldown has elapsed since the last
successfully spoken utterance. -/
def SpeechEngine.can_speak (s : SpeechEngine) (now : ℚ) : Bool :=
  if s.shutdownRequested then false
  else if s.config.cooldown_seconds ≤ now - s.last_spoken_ts then true else false

/-- Method `SpeechEngine.speak` at monotonic time `now`: strip the text;
no-op on empty text or shutdown; no-op when `can_speak` is false (the
cooldown gate guarding against queue spam); otherwise `put_nowait` the
stripped text, silently dropping it when the queue is full. -/
def SpeechEngine.speak (s : SpeechEngine) (text : String) (now : ℚ) : SpeechEngine :=
  let t := pyStrip text
  if t = "" ∨ s.shutdownRequested = true then s
  else if SpeechEngine.can_speak s now = false then s
  else if s.queue.length < s.config.queue_maxsize then
    { s with queue := s.queue ++ [(t, now)] }
  else s

/-- Method `SpeechEngine.repeat_last`: re-submit the last successfully spoken
text through the normal `speak` path when it is non-empty. -/
def SpeechEngine.repeat_last (s : SpeechEngine) (now : ℚ) : SpeechEngine :=
  match s.last_spoken with
  | some t => if t ≠ "" then SpeechEngine.speak s t now else s
  | none => s

/-- Method `SpeechEngine.stop`: only talks to the external engine; no
coordinator-visible state change. -/
def SpeechEngine.stop (s : SpeechEngine) : SpeechEngine :=
  s

/-- Method `SpeechEngine.clear_queue`: drain all pending entries. -/
def SpeechEngine.clear_queue (s : SpeechEngine) : SpeechEngine :=
  { s with queue := [] }

/-- Method `SpeechEngine.shutdown` at monotonic time `now`: a second call
returns at once; the first call sets the shutdown event, calls `stop` (a
no-op on coordinator state), and wakes the worker with an empty sentinel
entry unless the queue is full. -/
def SpeechEngine.shutdown (s : SpeechEngine) (now : ℚ) : SpeechEngine :=
  if s.shutdownRequested then s
  else
    let s1 := { s with shutdownRequested := true }
    if s1.queue.length < s1.config.queue_maxsize then
      { s1 with queue := s1.queue ++ [("", now)] }
    else s1

/-- One dequeued queue entry as seen by the worker loop of
`SpeechEngine._run_worker`, together with the environment of its processing:
`now` is the monotonic time at dequeue, `render_ok` tells whether the
synchronous `say`/`runAndWait` render succeeds (the `except` swallows a
failure), and `render_duration` is the non-negative time the successful
render takes before the worker re-reads the clock. -/
structure WorkerItem where
  text : String
  enq_ts : ℚ
  now : ℚ
  render_ok : Bool
  render_duration : ℚ
deriving DecidableEq

/-- One iteration of `SpeechEngine._run_worker` on a dequeued entry, returning
the new state and the render start time when a render happened.  The code
ignores the enqueue timestamp, skips the dummy wake item, recomputes the
remaining cooldown against the current clock and sleeps it off, so a render
starts at `max now (last_spoken_ts + cooldown)`; `last_spoken` and
`last_spoken_ts` are written only after a successful render, the timestamp
from a fresh clock read.  The sleep granularity of 0.02 s is idealized to an
exact wake-up, and a shutdown arriving mid-wait is modelled by the flag
checked at iteration start. -/
def SpeechEngine.workerProcess (s : SpeechEngine) (item : WorkerItem) :
    SpeechEngine × Option ℚ :=
  if s.shutdownRequested then (s, none)
  else if pyStrip item.text = "" then (s, none)
  else
    let render_time := max item.now (s.last_spoken_ts + s.config.cooldown_seconds)
    if item.render_ok then
      ({ s with last_spoken := some item.text,
                last_spoken_ts := render_time + item.render_duration }, some render_time)
    else (s, none)

/-- The worker loop over a FIFO sequence of dequeued entries, collecting the
start times of the renders it performs. -/
def SpeechEngine.workerRun (s : SpeechEngine) : List WorkerItem → SpeechEngine × List ℚ
  | [] => (s, [])
  | item :: rest =>
    let step := SpeechEngine.workerProcess s item
    let tail := SpeechEngine.workerRun step.1 rest
    (tail.1, step.2.toList ++ tail.2)

/-! Helper lemmas about the vote aggregator. -/

theorem VoteAggregator.add_maxlen (a : VoteAggregator) (x : String) :
    (a.add x).maxlen = a.maxlen := rfl

theorem VoteAggregator.add_buffer (a : VoteAggregator) (x : String) :
    (a.add x).buffer = (a.buffer ++ [x]).drop (a.buffer.length + 1 - a.maxlen) := rfl

theorem VoteAggregator.foldl_add_buffer (ls : List String) :
    ∀ a : VoteAggregator, a.buffer.length ≤ a.maxlen →
      (ls.foldl VoteAggregator.add a).buffer
          = (a.buffer ++ ls).drop (a.buffer.length + ls.length - a.maxlen)
      ∧ (ls.foldl VoteAggregator.add a).maxlen = a.maxlen := by
  induction ls with
  | nil =>
    intro a h
    refine ⟨?_, rfl⟩
    have hz : a.buffer.length + ([] : List String).length - a.maxlen = 0 := by
      simp; omega
    rw [hz]
    simp
  | cons x xs ih =>
    intro a h
    have hlen : (a.add x).buffer.length
        = a.buffer.length + 1 - (a.buffer.length + 1 - a.maxlen) := by
      rw [VoteAggregator.add_buffer, List.length_drop, List.length_append]
      simp
    have hle2 : (a.add x).buffer.length ≤ (a.add x).maxlen := by
      rw [VoteAggregator.add_maxlen, hlen]; omega
    have hstep := ih (a.add x) hle2
    refine ⟨?_, by rw [List.foldl_cons, hstep.2, VoteAggregator.add_maxlen]⟩
    rw [List.foldl_cons, hstep.1, VoteAggregator.add_maxlen, VoteAggregator.add_buffer]
    have hkle : a.buffer.length + 1 - a.maxlen ≤ (a.buffer ++ [x]).length := by
      simp
    rw [← List.drop_append_of_le_length hkle, List.drop_drop]
    have harr : a.buffer ++ [x] ++ xs = a.buffer ++ x :: xs := by simp
    rw [harr]
    congr 1
    simp only [List.length_drop, List.length_append, List.length_cons,
      List.length_singleton, List.length_nil]
    omega

theorem mem_uniqueInOrderAux (x : String) :
    ∀ (l seen : List String), x ∈ uniqueInOrderAux seen l ↔ x ∈ l ∧ x ∉ seen := by
  intro l
  induction l with
  | nil => intro seen; simp [uniqueInOrderAux]
  | cons y ys ih =>
    intro seen
    by_cases hy : y ∈ seen
    · rw [uniqueInOrderAux, if_pos hy, ih]
      constructor
      · rintro ⟨hmem, hnot⟩
        exact ⟨List.mem_cons_of_mem _ hmem, hnot⟩
      · rintro ⟨hmem, hnot⟩
        rcases List.mem_cons.1 hmem with h | h
        · exact absurd (h ▸ hy) hnot
        · exact ⟨h, hnot⟩
    · rw [uniqueInOrderAux, if_neg hy]
      constructor
      · intro hmem
        rcases List.mem_cons.1 hmem with h | h
        · exact ⟨h ▸ List.mem_cons_self _ _, h ▸ hy⟩
        · rcases (ih (seen ++ [y])).1 h with ⟨h1, h2⟩
          simp only [List.mem_append, List.mem_singleton] at h2
          push_neg at h2
          exact ⟨List.mem_cons_of_mem _ h1, h2.1⟩
      · rintro ⟨hmem, hnot⟩
        rcases List.mem_cons.1 hmem with h | h
        · exact h ▸ List.mem_cons_self _ _
        · by_cases hxy : x = y
          · exact hxy ▸ List.mem_cons_self _ _
          · refine List.mem_cons_of_mem _ ((ih (seen ++ [y])).2 ⟨h, ?_⟩)
            simp only [List.mem_append, List.mem_singleton]
            push_neg
            exact ⟨hnot, hxy⟩

theorem mem_uniqueInOrder (x : String) (l : List String) :
    x ∈ uniqueInOrder l ↔ x ∈ l := by
  rw [uniqueInOrder, mem_uniqueInOrderAux]
  simp

theorem pickFold_spec (f : String → ℕ) :
    ∀ (xs : List String) (b : String),
      (pickFold f b xs = b ∨ pickFold f b xs ∈ xs)
      ∧ f b ≤ f (pickFold f b xs)
      ∧ ∀ z ∈ xs, f z ≤ f (pickFold f b xs) := by
  intro xs
  induction xs with
  | nil => intro b; simp [pickFold]
  | cons y ys ih =>
    intro b
    have hunf : pickFold f b (y :: ys) = pickFold f (if f b < f y then y else b) ys := rfl
    by_cases hc : f b < f y
    · rw [hunf, if_pos hc]
      rcases ih y with ⟨hmem, hb, hall⟩
      refine ⟨?_, ?_, ?_⟩
      · rcases hmem with h | h
        · exact Or.inr (by rw [h]; exact List.mem_cons_self _ _)
        · exact Or.inr (List.mem_cons_of_mem _ h)
      · exact le_trans (le_of_lt hc) hb
      · intro z hz
        rcases List.mem_cons.1 hz with h | h
        · exact h ▸ hb
        · exact hall z h
    · rw [hunf, if_neg hc]
      rcases ih b with ⟨hmem, hb, hall⟩
      refine ⟨?_, hb, ?_⟩
      · rcases hmem with h | h
        · exact Or.inl h
        · exact Or.inr (List.mem_cons_of_mem _ h)
      · intro z hz
        rcases List.mem_cons.1 hz with h | h
        · subst h
          exact le_trans (Nat.le_of_not_lt hc) hb
        · exact hall z h

theorem pickMaxBy_count_spec (buf : List String) (h : buf ≠ []) :
    ∃ r, pickMaxBy (fun l => buf.count l) (uniqueInOrder buf) = some r
      ∧ r ∈ buf ∧ ∀ z, buf.count z ≤ buf.count r := by
  rcases hu : uniqueInOrder buf with _ | ⟨u, us⟩
  · exfalso
    rcases List.exists_mem_of_ne_nil buf h with ⟨x, hx⟩
    have : x ∈ uniqueInOrder buf := (mem_uniqueInOrder x buf).2 hx
    rw [hu] at this
    exact List.not_mem_nil x this
  · refine ⟨pickFold (fun l => buf.count l) u us, rfl, ?_, ?_⟩
    · rcases (pickFold_spec (fun l => buf.count l) us u).1 with hr | hr
      · have hmu : u ∈ uniqueInOrder buf := by rw [hu]; exact List.mem_cons_self _ _
        rw [hr]
        exact (mem_uniqueInOrder u buf).1 hmu
      · have : pickFold (fun l => buf.count l) u us ∈ uniqueInOrder buf := by
          rw [hu]; exact List.mem_cons_of_mem _ hr
        exact (mem_uniqueInOrder _ buf).1 this
    · intro z
      by_cases hz : z ∈ buf
      · have hzu : z ∈ uniqueInOrder buf := (mem_uniqueInOrder z buf).2 hz
        rw [hu] at hzu
        rcases List.mem_cons.1 hzu with hcase | hcase
        · exact hcase ▸ (pickFold_spec (fun l => buf.count l) us u).2.1
        · exact (pickFold_spec (fun l => buf.count l) us u).2.2 z hcase
      · rw [List.count_eq_zero.2 hz]
        exact Nat.zero_le _

theorem majority_none_of_counts_lt (a : VoteAggregator) (m : ℕ)
    (h : ∀ l, a.buffer.count l < m) : a.majority m = none := by
  rw [VoteAggregator.majority]
  by_cases hlen : a.buffer.length < m
  · rw [if_pos hlen]
  · rw [if_neg hlen]
    have hne : a.buffer ≠ [] := by
      intro hnil
      have h0 := h ""
      rw [hnil] at h0 hlen
      simp at h0 hlen
      omega
    rcases pickMaxBy_count_spec a.buffer hne with ⟨r, hr, _, _⟩
    rw [hr]
    simp only [if_neg (Nat.not_le.2 (h r))]

theorem majority_spec_of_count_ge (a : VoteAggregator) (m : ℕ) (l : String)
    (hm : 1 ≤ m) (h : m ≤ a.buffer.count l) :
    ∃ r, a.majority m = some r ∧ m ≤ a.buffer.count r
      ∧ ∀ z, a.buffer.count z ≤ a.buffer.count r := by
  have hne : a.buffer ≠ [] := by
    intro hnil
    rw [hnil] at h
    simp at h
    omega
  rcases pickMaxBy_count_spec a.buffer hne with ⟨r, hr, _, hmax⟩
  have hrm : m ≤ a.buffer.count r := le_trans h (hmax l)
  refine ⟨r, ?_, hrm, hmax⟩
  rw [VoteAggregator.majority]
  have hlen : ¬ a.buffer.length < m :=
    Nat.not_lt.2 (le_trans hrm (List.count_le_length r a.buffer))
  rw [if_neg hlen, hr]
  simp only [if_pos hrm]

/-! Helper lemmas about the overlap filter and the count mode. -/

theorem has_significant_overlap_iff (bbox1 bbox2 : Box) (threshold : ℚ)
    (hτ : 0 ≤ threshold) :
    DecisionEngine.has_significant_overlap bbox1 bbox2 threshold = true
      ↔ threshold < iouQ bbox1 bbox2 := by
  simp only [DecisionEngine.has_significant_overlap, iouQ]
  split_ifs with h1 h2 h3
  · simp only [Bool.false_eq_true, false_iff, not_lt]
    exact hτ
  · simp only [Bool.false_eq_true, false_iff, not_lt]
    exact hτ
  · simp only [true_iff]
    exact h3
  · simp only [Bool.false_eq_true, false_iff]
    exact h3

theorem countFilterStep_append_iff (filtered : List Detection) (det : Detection) :
    countFilterStep filtered det = filtered ++ [det]
      ↔ CONF_THRESHOLD ≤ det.conf
        ∧ ∀ e ∈ filtered, iouQ det.bbox e.bbox ≤ 1/2 := by
  simp only [countFilterStep]
  by_cases hc : (filtered.any fun existing =>
      DecisionEngine.has_significant_overlap det.bbox existing.bbox (1/2)) = false
      ∧ CONF_THRESHOLD ≤ det.conf
  · rw [if_pos hc]
    simp only [true_iff]
    refine ⟨hc.2, ?_⟩
    intro e he
    have hov := (List.any_eq_false.1 hc.1) e he
    rw [has_significant_overlap_iff det.bbox e.bbox (1/2) (by norm_num)] at hov
    exact not_lt.1 hov
  · rw [if_neg hc]
    constructor
    · intro hcontra
      exfalso
      have hlen := congrArg List.length hcontra
      simp at hlen
    · rintro ⟨hconf, hiou⟩
      exfalso
      apply hc
      refine ⟨List.any_eq_false.2 ?_, hconf⟩
      intro e he
      rw [has_significant_overlap_iff det.bbox e.bbox (1/2) (by norm_num)]
      exact not_lt.2 (hiou e he)

theorem countFilterStep_cases (filtered : List Detection) (det : Detection) :
    countFilterStep filtered det = filtered ++ [det]
      ∨ countFilterStep filtered det = filtered := by
  simp only [countFilterStep]
  split_ifs with h
  · exact Or.inl rfl
  · exact Or.inr rfl

theorem dominantLabel_mem (labels : List String) (h : labels ≠ []) :
    dominantLabel labels ∈ labels := by
  rcases pickMaxBy_count_spec labels h with ⟨r, hr, hmem, _⟩
  rw [dominantLabel, hr]
  exact hmem

theorem countChosenLabel_count_pos (e : DecisionEngine) (detections : List Detection)
    (hf : countFilter detections ≠ []) :
    0 < ((countFilter detections).map Detection.label).count
      (countChosenLabel e detections) := by
  have hlabels : (countFilter detections).map Detection.label ≠ [] := by
    intro hnil
    exact hf (List.map_eq_nil_iff.1 hnil)
  rw [countChosenLabel]
  rcases hst : (e.label_votes_count.add
      (dominantLabel ((countFilter detections).map Detection.label))).majority VOTE_MIN
    with _ | s
  · simp only []
    exact List.count_pos_iff.2 (dominantLabel_mem _ hlabels)
  · simp only []
    by_cases hcs : 0 < ((countFilter detections).map Detection.label).count s
    · rw [if_pos hcs]
      exact hcs
    · rw [if_neg hcs]
      exact List.count_pos_iff.2 (dominantLabel_mem _ hlabels)

theorem count_success (e : DecisionEngine) (detections : List Detection)
    (hf : countFilter detections ≠ []) :
    DecisionEngine.count e detections =
      ({ text_to_say :=
           toString (((countFilter detections).map Detection.label).count
             (countChosenLabel e detections)) ++ " " ++ countChosenLabel e detections,
         debug_text := "Count " ++ countChosenLabel e detections ++ ": "
           ++ toString (((countFilter detections).map Detection.label).count
                (countChosenLabel e detections)),
         conf := if ((e.label_votes_count.add (dominantLabel
               ((countFilter detections).map Detection.label))).majority VOTE_MIN).isSome
               = true
           then 1 else 3/5 },
       { e with label_votes_count := e.label_votes_count.add (dominantLabel
           ((countFilter detections).map Detection.label)) }) := by
  have hdet : detections ≠ [] := by
    intro hnil
    apply hf
    rw [hnil]
    rfl
  have hne1 : detections.isEmpty = false := by
    cases detections with
    | nil => exact absurd rfl hdet
    | cons a l => rfl
  have hne2 : (countFilter detections).isEmpty = false := by
    cases hcf : countFilter detections with
    | nil => exact absurd hcf hf
    | cons a l => rfl
  have hpos := countChosenLabel_count_pos e detections hf
  rw [DecisionEngine.count, if_neg (by simp [hne1]), if_neg (by simp [hne2])]
  rw [countChosenLabel] at hpos ⊢
  simp only [] at hpos ⊢
  rw [if_neg (by omega : ¬ ((countFilter detections).map Detection.label).count
    (match (e.label_votes_count.add (dominantLabel
        ((countFilter detections).map Detection.label))).majority VOTE_MIN with
      | some s => if 0 < ((countFilter detections).map Detection.label).count s then s
          else dominantLabel ((countFilter detections).map Detection.label)
      | none => dominantLabel ((countFilter detections).map Detection.label)) = 0)]

/-! Helper lemmas about the identify mode. -/

theorem sortByConfDesc_nil : sortByConfDesc [] = [] := rfl

theorem identify_eq_core (e : DecisionEngine) (detections : List Detection)
    (frame_shape : ℤ × ℤ × ℤ) (top : Detection) (rest : List Detection)
    (h : sortByConfDesc detections = top :: rest) :
    DecisionEngine.identify e detections frame_shape
      = DecisionEngine.identifyCore e (top :: rest) frame_shape := by
  have hdet : detections ≠ [] := by
    intro hnil
    rw [hnil, sortByConfDesc_nil] at h
    exact List.noConfusion h
  have hne : detections.isEmpty = false := by
    cases detections with
    | nil => exact absurd rfl hdet
    | cons a l => rfl
  rw [DecisionEngine.identify, if_neg (by simp [hne]), h]

theorem identifyCore_ambiguous (e : DecisionEngine) (top : Detection)
    (rest : List Detection) (frame_shape : ℤ × ℤ × ℤ)
    (h : ambiguousTop top rest = true) :
    DecisionEngine.identifyCore e (top :: rest) frame_shape
      = (DecisionEngine.uncertain
          "Mehrere Produkte erkannt, bitte nur ein Produkt ins Bild halten", e) := by
  rw [DecisionEngine.identifyCore]
  simp only [h, if_true]

theorem identifyCore_low_conf (e : DecisionEngine) (top : Detection)
    (rest : List Detection) (frame_shape : ℤ × ℤ × ℤ)
    (hamb : ambiguousTop top rest = false)
    (hsm : (DecisionEngine.smoothed_conf_identify e top.conf).1
      < CONF_THRESHOLD - 1/20) :
    DecisionEngine.identifyCore e (top :: rest) frame_shape
      = (DecisionEngine.uncertain "Unsicher, Kamera näher an das Produkt halten",
         (DecisionEngine.smoothed_conf_identify e top.conf).2) := by
  rw [DecisionEngine.identifyCore]
  simp only [hamb, Bool.false_eq_true, if_false]
  rw [if_pos hsm]

theorem smoothed_conf_keeps_votes (e : DecisionEngine) (c : ℚ) :
    (DecisionEngine.smoothed_conf_identify e c).2.label_votes_identify
      = e.label_votes_identify := rfl

/-! Helper lemmas about the speech delivery worker. -/

theorem workerRun_cons (s : SpeechEngine) (it : WorkerItem) (rest : List WorkerItem) :
    SpeechEngine.workerRun s (it :: rest)
      = ((SpeechEngine.workerRun (SpeechEngine.workerProcess s it).1 rest).1,
         (SpeechEngine.workerProcess s it).2.toList
           ++ (SpeechEngine.workerRun (SpeechEngine.workerProcess s it).1 rest).2) := rfl

theorem workerProcess_none_state (s : SpeechEngine) (it : WorkerItem)
    (h : (SpeechEngine.workerProcess s it).2 = none) :
    (SpeechEngine.workerProcess s it).1 = s := by
  rw [SpeechEngine.workerProcess] at h ⊢
  split_ifs at h ⊢ with h1 h2 h3 <;> first | rfl | simp_all

theorem workerProcess_some_spec (s : SpeechEngine) (it : WorkerItem) (r : ℚ)
    (h : (SpeechEngine.workerProcess s it).2 = some r) :
    r = max it.now (s.last_spoken_ts + s.config.cooldown_seconds)
    ∧ (SpeechEngine.workerProcess s it).1
        = { s with last_spoken := some it.text,
                   last_spoken_ts := r + it.render_duration } := by
  rw [SpeechEngine.workerProcess] at h ⊢
  split_ifs at h ⊢ with h1 h2 h3
  all_goals first
  | (refine ⟨h.symm, ?_⟩; rw [← h])
  | simp_all

theorem workerRun_spacing (items : List WorkerItem) :
    ∀ s : SpeechEngine, 0 ≤ s.config.cooldown_seconds →
      (∀ it ∈ items, 0 ≤ it.render_duration) →
      (∀ r ∈ (SpeechEngine.workerRun s items).2,
        s.last_spoken_ts + s.config.cooldown_seconds ≤ r)
      ∧ List.Chain' (fun a b => a + s.config.cooldown_seconds ≤ b)
          (SpeechEngine.workerRun s items).2 := by
  induction items with
  | nil =>
    intro s hcd hdur
    constructor
    · intro r hr
      simp [SpeechEngine.workerRun] at hr
    · simp [SpeechEngine.workerRun]
  | cons it rest ih =>
    intro s hcd hdur
    have hdur0 : 0 ≤ it.render_duration := hdur it (List.mem_cons_self _ _)
    have hdurR : ∀ x ∈ rest, 0 ≤ x.render_duration :=
      fun x hx => hdur x (List.mem_cons_of_mem _ hx)
    rw [workerRun_cons]
    rcases hstep : (SpeechEngine.workerProcess s it).2 with _ | r
    · have hs1 : (SpeechEngine.workerProcess s it).1 = s :=
        workerProcess_none_state s it hstep
      rw [hs1]
      simp only [Option.toList_none, List.nil_append]
      exact ih s hcd hdurR
    · rcases workerProcess_some_spec s it r hstep with ⟨hr, hs1⟩
      rw [hs1]
      have hrlb : s.last_spoken_ts + s.config.cooldown_seconds ≤ r := by
        rw [hr]
        exact le_max_right _ _
      have ihs := ih { s with last_spoken := some it.text,
                              last_spoken_ts := r + it.render_duration } hcd hdurR
      constructor
      · intro x hx
        simp only [Option.toList_some, List.cons_append, List.mem_cons] at hx
        rcases hx with hx | hx
        · exact hx ▸ hrlb
        · have hlow := ihs.1 x hx
          simp only [] at hlow
          linarith
      · simp only [Option.toList_some, List.cons_append]
        rw [List.chain'_cons']
        constructor
        · intro y hy
          have hytail := List.mem_of_mem_head? hy
          have hlow := ihs.1 y hytail
          simp only [] at hlow
          linarith
        · exact ihs.2

theorem smoothed_conf_window (e : DecisionEngine) (c : ℚ) (w : List ℚ)
    (h : e.conf_history_identify.length ≤ 5)
    (hw : w = (e.conf_history_identify ++ [c]).drop
      ((e.conf_history_identify ++ [c]).length - 5)) :
    (DecisionEngine.smoothed_conf_identify e c).1 = w.sum / (w.length : ℚ)
    ∧ (DecisionEngine.smoothed_conf_identify e c).2.conf_history_identify = w := by
  subst hw
  rw [DecisionEngine.smoothed_conf_identify]
  by_cases hl : 5 < (e.conf_history_identify ++ [c]).length
  · have h1 : (e.conf_history_identify ++ [c]).length - 5 = 1 := by
      simp only [List.length_append, List.length_singleton] at hl ⊢
      omega
    rw [h1]
    simp only [if_pos hl]
    constructor <;> trivial
  · have h0 : (e.conf_history_identify ++ [c]).length - 5 = 0 := by
      simp only [List.length_append, List.length_singleton] at hl ⊢
      omega
    rw [h0, List.drop_zero]
    simp only [if_neg hl]
    constructor <;> trivial

/-! Claim theorems. -/

/-- C1: the claim says `DecisionEngine.decide` never raises and that every
branch, including mode `"obstacle"`, returns a `Decision`.  The code violates
this: `decide` dispatches mode `"obstacle"` to `self._obstacle(...)`, but the
whole `_obstacle` method is commented out in `app/logic_module.py`, so the
call raises `AttributeError` for every engine state and detection list. -/
theorem decide_obstacle_raises (e : DecisionEngine) (detections : List Detection)
    (frame_shape : ℤ × ℤ × ℤ) :
    DecisionEngine.decide e "obstacle" detections frame_shape
      = Except.error "AttributeError: DecisionEngine has no attribute _obstacle" := by
  rw [DecisionEngine.decide, if_neg (by decide), if_neg (by decide), if_pos rfl]

/-- C2 (counterexample): a state with no shutdown, a non-full queue and a
non-empty text on which `speak` nevertheless enqueues nothing, because the
cooldown has not elapsed (`can_speak` is false at time 11 with
`last_spoken_ts = 10` and cooldown 2) — refuting "drops only when the queue
is full". -/
theorem speak_cooldown_gate_counterexample :
    pyStrip "hallo" ≠ ""
    ∧ (⟨⟨2, 30⟩, [], false, none, 10⟩ : SpeechEngine).shutdownRequested = false
    ∧ (⟨⟨2, 30⟩, [], false, none, 10⟩ : SpeechEngine).queue.length
        < (⟨⟨2, 30⟩, [], false, none, 10⟩ : SpeechEngine).config.queue_maxsize
    ∧ SpeechEngine.can_speak ⟨⟨2, 30⟩, [], false, none, 10⟩ 11 = false
    ∧ SpeechEngine.speak ⟨⟨2, 30⟩, [], false, none, 10⟩ "hallo" 11
        = ⟨⟨2, 30⟩, [], false, none, 10⟩ := by
  refine ⟨by decide, rfl, by decide, ?_, ?_⟩
  · norm_num [SpeechEngine.can_speak]
  · norm_num [SpeechEngine.speak, SpeechEngine.can_speak,
      show pyStrip "hallo" = "hallo" from by decide]

/-- C2 (amended): `speak(text)` is a no-op when the stripped text is empty,
when shutdown has been requested, or when `can_speak(now)` is false (the
cooldown gate); otherwise it enqueues the stripped text with the current
time, silently dropping the submission exactly when the queue is full. -/
theorem speak_spec :
    ∀ (s : SpeechEngine) (text : String) (now : ℚ),
      (pyStrip text = "" → SpeechEngine.speak s text now = s)
      ∧ (s.shutdownRequested = true → SpeechEngine.speak s text now = s)
      ∧ (SpeechEngine.can_speak s now = false → SpeechEngine.speak s text now = s)
      ∧ (pyStrip text ≠ "" → s.shutdownRequested = false →
          SpeechEngine.can_speak s now = true →
          s.queue.length < s.config.queue_maxsize →
          SpeechEngine.speak s text now
            = { s with queue := s.queue ++ [(pyStrip text, now)] })
      ∧ (pyStrip text ≠ "" → s.shutdownRequested = false →
          SpeechEngine.can_speak s now = true →
          ¬ s.queue.length < s.config.queue_maxsize →
          SpeechEngine.speak s text now = s) := by
  intro s text now
  simp only [SpeechEngine.speak]
  refine ⟨?_, ?_, ?_, ?_, ?_⟩
  · intro h
    rw [if_pos (Or.inl h)]
  · intro h
    rw [if_pos (Or.inr h)]
  · intro h
    by_cases h1 : pyStrip text = "" ∨ s.shutdownRequested = true
    · rw [if_pos h1]
    · rw [if_neg h1, if_pos h]
  · intro h1 h2 h3 h4
    rw [if_neg (by simp [h1, h2]), if_neg (by simp [h3]), if_pos h4]
  · intro h1 h2 h3 h4
    rw [if_neg (by simp [h1, h2]), if_neg (by simp [h3]), if_neg h4]

/-- C2 (witness): at a fresh coordinator state the enqueue branch of
`speak_spec` fires and appends the entry. -/
theorem speak_spec_witness :
    SpeechEngine.speak ⟨⟨2, 30⟩, [], false, none, 0⟩ "hallo" 5
      = { (⟨⟨2, 30⟩, [], false, none, 0⟩ : SpeechEngine) with
          queue := ([] : List (String × ℚ)) ++ [(pyStrip "hallo", 5)] } :=
  (speak_spec ⟨⟨2, 30⟩, [], false, none, 0⟩ "hallo" 5).2.2.2.1
    (by decide) rfl (by norm_num [SpeechEngine.can_speak]) (by decide)

set_option maxHeartbeats 2000000 in
/-- C3 (counterexample): with nine buffered count-mode votes for `"a"` and a
single high-confidence `"b"` detection, the frame speaks `"1 b"` although the
stable majority is `"a"` (which is absent from this frame's tally, so it did
not back the spoken label), yet the confidence is 1, not 0.6 — refuting
"1.0 exactly when a stable majority backed the chosen (spoken) label". -/
theorem count_conf_counterexample :
    (DecisionEngine.count
        ⟨⟨10, []⟩, ⟨10, ["a","a","a","a","a","a","a","a","a"]⟩, []⟩
        [⟨"b", 9/10, ⟨0, 0, 10, 10⟩⟩]).1.conf = 1
    ∧ (DecisionEngine.count
        ⟨⟨10, []⟩, ⟨10, ["a","a","a","a","a","a","a","a","a"]⟩, []⟩
        [⟨"b", 9/10, ⟨0, 0, 10, 10⟩⟩]).1.text_to_say = "1 b"
    ∧ (VoteAggregator.majority
        (VoteAggregator.add ⟨10, ["a","a","a","a","a","a","a","a","a"]⟩ "b")
        VOTE_MIN) = some "a"
    ∧ (some "a" : Option String) ≠ some "b" := by
  refine ⟨?_, ?_, by decide, by decide⟩
  · norm_num [DecisionEngine.count, countFilter, sortByConfDesc, insertByConfDesc,
      countFilterStep, DecisionEngine.has_significant_overlap, dominantLabel,
      uniqueInOrder, uniqueInOrderAux, pickMaxBy, pickFold,
      VoteAggregator.add, VoteAggregator.majority, CONF_THRESHOLD, VOTE_N, VOTE_MIN] <;>
    decide
  · norm_num [DecisionEngine.count, countFilter, sortByConfDesc, insertByConfDesc,
      countFilterStep, DecisionEngine.has_significant_overlap, dominantLabel,
      uniqueInOrder, uniqueInOrderAux, pickMaxBy, pickFold,
      VoteAggregator.add, VoteAggregator.majority, CONF_THRESHOLD, VOTE_N, VOTE_MIN] <;>
    decide

/-- C3 (amended): in count mode with a non-empty filtered set, the spoken
label is the stable majority label if one exists and it occurs in this
frame's tally, else this frame's dominant label (the content of
`countChosenLabel`); the confidence is 1.0 exactly when the count-mode
aggregator holds a stable majority after this frame's vote — whether or not
that majority label is the spoken one — and 0.6 otherwise. -/
theorem count_spoken_label_and_conf (e : DecisionEngine) (detections : List Detection)
    (hf : countFilter detections ≠ []) :
    (DecisionEngine.count e detections).1.text_to_say
        = toString (((countFilter detections).map Detection.label).count
            (countChosenLabel e detections)) ++ " " ++ countChosenLabel e detections
    ∧ ((DecisionEngine.count e detections).1.conf = 1
        ↔ ((e.label_votes_count.add (dominantLabel
            ((countFilter detections).map Detection.label))).majority
              VOTE_MIN).isSome = true)
    ∧ ((DecisionEngine.count e detections).1.conf = 1
        ∨ (DecisionEngine.count e detections).1.conf = 3/5) := by
  rw [count_success e detections hf]
  refine ⟨rfl, ?_, ?_⟩
  · by_cases hst : ((e.label_votes_count.add (dominantLabel
        ((countFilter detections).map Detection.label))).majority VOTE_MIN).isSome = true
    · simp [hst]
    · simp only [hst, if_false, iff_false]
      norm_num
  · by_cases hst : ((e.label_votes_count.add (dominantLabel
        ((countFilter detections).map Detection.label))).majority VOTE_MIN).isSome = true
    · simp [hst]
    · simp [hst]

/-- C3 (witness): the amended statement evaluated on a fresh engine and one
confident apple detection. -/
theorem count_spoken_label_and_conf_witness :
    (DecisionEngine.count DecisionEngine.init
        [⟨"apple", 9/10, ⟨0, 0, 10, 10⟩⟩]).1.text_to_say
      = toString (((countFilter [⟨"apple", 9/10, ⟨0, 0, 10, 10⟩⟩]).map
            Detection.label).count
          (countChosenLabel DecisionEngine.init [⟨"apple", 9/10, ⟨0, 0, 10, 10⟩⟩]))
        ++ " " ++ countChosenLabel DecisionEngine.init [⟨"apple", 9/10, ⟨0, 0, 10, 10⟩⟩] :=
  (count_spoken_label_and_conf DecisionEngine.init [⟨"apple", 9/10, ⟨0, 0, 10, 10⟩⟩]
    (by norm_num [countFilter, sortByConfDesc, insertByConfDesc, countFilterStep,
      DecisionEngine.has_significant_overlap, CONF_THRESHOLD])).1

/-- C4 (counterexample): two same-label boxes with IoU exactly the threshold
0.5 — `(0,0,10,20)` (area 200) and `(0,0,10,10)` (area 100), intersection
100, union 200.  The lower-confidence box is nevertheless selected, because
the code treats as duplicates only pairs with IoU strictly greater than τ —
refuting "selects iff ... IoU with every already-selected detection is < τ". -/
theorem count_filter_boundary_counterexample :
    iouQ ⟨0, 0, 10, 10⟩ ⟨0, 0, 10, 20⟩ = 1/2
    ∧ ¬ iouQ ⟨0, 0, 10, 10⟩ ⟨0, 0, 10, 20⟩ < 1/2
    ∧ CONF_THRESHOLD ≤ (45 : ℚ)/100
    ∧ countFilter [⟨"A", 1/2, ⟨0, 0, 10, 20⟩⟩, ⟨"A", 45/100, ⟨0, 0, 10, 10⟩⟩]
        = [⟨"A", 1/2, ⟨0, 0, 10, 20⟩⟩, ⟨"A", 45/100, ⟨0, 0, 10, 10⟩⟩] := by
  refine ⟨by norm_num [iouQ], by norm_num [iouQ], by norm_num [CONF_THRESHOLD], ?_⟩
  norm_num [countFilter, sortByConfDesc, insertByConfDesc, countFilterStep,
    DecisionEngine.has_significant_overlap, CONF_THRESHOLD]

set_option maxHeartbeats 2000000 in
/-- C4 (amended): one step of the count-mode duplicate filter, applied to the
detections in descending-confidence order, appends a detection exactly when
its confidence reaches `CONF_THRESHOLD` and its IoU with every
already-selected detection is ≤ τ (τ = 0.5; only IoU strictly above τ counts
as duplicate), and otherwise leaves the selection unchanged; the boxes
`(0,0,10,10)` and `(1,1,9,9)` (IoU = 0.64) are duplicates at τ = 0.5, the
boxes `(0,0,10,10)` and `(20,20,30,30)` (IoU = 0) are not, and five mutually
overlapping `"apple"` detections collapse to the single most confident one,
spoken as a count of 1. -/
theorem count_filter_spec :
    (∀ (filtered : List Detection) (det : Detection),
        countFilterStep filtered det = filtered ++ [det]
          ↔ CONF_THRESHOLD ≤ det.conf
            ∧ ∀ e ∈ filtered, iouQ det.bbox e.bbox ≤ 1/2)
    ∧ (∀ (filtered : List Detection) (det : Detection),
        countFilterStep filtered det = filtered ++ [det]
          ∨ countFilterStep filtered det = filtered)
    ∧ iouQ ⟨0, 0, 10, 10⟩ ⟨1, 1, 9, 9⟩ = 16/25
    ∧ DecisionEngine.has_significant_overlap ⟨0, 0, 10, 10⟩ ⟨1, 1, 9, 9⟩ (1/2) = true
    ∧ iouQ ⟨0, 0, 10, 10⟩ ⟨20, 20, 30, 30⟩ = 0
    ∧ DecisionEngine.has_significant_overlap ⟨0, 0, 10, 10⟩ ⟨20, 20, 30, 30⟩ (1/2) = false
    ∧ countFilter
        [⟨"apple", 9/10, ⟨0, 0, 10, 10⟩⟩, ⟨"apple", 8/10, ⟨0, 0, 10, 10⟩⟩,
         ⟨"apple", 7/10, ⟨0, 0, 10, 10⟩⟩, ⟨"apple", 6/10, ⟨0, 0, 10, 10⟩⟩,
         ⟨"apple", 5/10, ⟨0, 0, 10, 10⟩⟩]
        = [⟨"apple", 9/10, ⟨0, 0, 10, 10⟩⟩]
    ∧ (DecisionEngine.count DecisionEngine.init
        [⟨"apple", 9/10, ⟨0, 0, 10, 10⟩⟩, ⟨"apple", 8/10, ⟨0, 0, 10, 10⟩⟩,
         ⟨"apple", 7/10, ⟨0, 0, 10, 10⟩⟩, ⟨"apple", 6/10, ⟨0, 0, 10, 10⟩⟩,
         ⟨"apple", 5/10, ⟨0, 0, 10, 10⟩⟩]).1.text_to_say = "1 apple" := by
  refine ⟨countFilterStep_append_iff, countFilterStep_cases, by norm_num [iouQ],
    by norm_num [DecisionEngine.has_significant_overlap],
    by norm_num [iouQ], by norm_num [DecisionEngine.has_significant_overlap], ?_, ?_⟩
  · norm_num [countFilter, sortByConfDesc, insertByConfDesc, countFilterStep,
      DecisionEngine.has_significant_overlap, CONF_THRESHOLD]
  · norm_num [DecisionEngine.count, DecisionEngine.init, countFilter, sortByConfDesc,
      insertByConfDesc, countFilterStep, DecisionEngine.has_significant_overlap,
      dominantLabel, uniqueInOrder, uniqueInOrderAux, pickMaxBy, pickFold,
      VoteAggregator.add, VoteAggregator.majority, CONF_THRESHOLD, VOTE_N, VOTE_MIN] <;>
    decide

/-- C4 (witness): the append branch of the filter-step characterization fires
on an empty selection for a confident detection. -/
theorem count_filter_spec_witness :
    countFilterStep [] ⟨"apple", 1/2, ⟨0, 0, 10, 10⟩⟩
      = [] ++ [⟨"apple", 1/2, ⟨0, 0, 10, 10⟩⟩] :=
  (count_filter_spec.1 [] ⟨"apple", 1/2, ⟨0, 0, 10, 10⟩⟩).mpr
    ⟨by norm_num [CONF_THRESHOLD], fun e he => absurd he (List.not_mem_nil e)⟩

/-- C5: the `VoteAggregator` buffer built from an empty aggregator by a
sequence of `add` calls holds exactly the trailing `maxlen`-suffix of the
added labels; `majority(m)` is `none` whenever every label's count is below
`m`, and whenever some label's count reaches `m ≥ 1` it returns a label of
maximal count whose count reaches `m`; on capacity 5 with adds
`[a,a,a,b,b]`, `majority 3 = some "a"` and `majority 4 = none`. -/
theorem vote_aggregator_spec :
    (∀ (N : ℕ) (ls : List String),
        (ls.foldl VoteAggregator.add ⟨N, []⟩).buffer = ls.drop (ls.length - N))
    ∧ (∀ (a : VoteAggregator) (m : ℕ),
        (∀ l, a.buffer.count l < m) → a.majority m = none)
    ∧ (∀ (a : VoteAggregator) (m : ℕ) (l : String),
        1 ≤ m → m ≤ a.buffer.count l →
        ∃ r, a.majority m = some r ∧ m ≤ a.buffer.count r
          ∧ ∀ z, a.buffer.count z ≤ a.buffer.count r)
    ∧ (["a", "a", "a", "b", "b"].foldl VoteAggregator.add ⟨5, []⟩).majority 3 = some "a"
    ∧ (["a", "a", "a", "b", "b"].foldl VoteAggregator.add ⟨5, []⟩).majority 4 = none := by
  refine ⟨?_, majority_none_of_counts_lt, ?_, by decide, by decide⟩
  · intro N ls
    have h := (VoteAggregator.foldl_add_buffer ls ⟨N, []⟩ (by simp)).1
    simpa using h
  · intro a m l hm h
    exact majority_spec_of_count_ge a m l hm h

/-- C5 (witness): the majority characterization applied to the buffer
`[a,a,a,b,b]` at `m = 3` with the count of `"a"` as the justification. -/
theorem vote_aggregator_spec_witness :
    ∃ r, (VoteAggregator.majority ⟨5, ["a", "a", "a", "b", "b"]⟩ 3) = some r
      ∧ 3 ≤ (["a", "a", "a", "b", "b"] : List String).count r
      ∧ ∀ z, (["a", "a", "a", "b", "b"] : List String).count z
          ≤ (["a", "a", "a", "b", "b"] : List String).count r :=
  vote_aggregator_spec.2.2.1 ⟨5, ["a", "a", "a", "b", "b"]⟩ 3 "a"
    (by decide) (by decide)

/-- C6: the delivery worker ignores the enqueue timestamp entirely (so the
cooldown is re-validated against the current time only); a render starts no
earlier than the dequeue time and no earlier than `last_spoken_ts` plus the
cooldown; `last_spoken`/`last_spoken_ts` are written only on a successful
render (any iteration that renders nothing leaves the state unchanged); and
along any worker run with non-negative render durations and cooldown,
consecutive render start times are at least one cooldown apart. -/
theorem worker_cooldown_spec :
    (∀ (s : SpeechEngine) (text : String) (e1 e2 now : ℚ) (ok : Bool) (dur : ℚ),
        SpeechEngine.workerProcess s ⟨text, e1, now, ok, dur⟩
          = SpeechEngine.workerProcess s ⟨text, e2, now, ok, dur⟩)
    ∧ (∀ (s : SpeechEngine) (it : WorkerItem) (r : ℚ),
        (SpeechEngine.workerProcess s it).2 = some r →
        s.last_spoken_ts + s.config.cooldown_seconds ≤ r
        ∧ it.now ≤ r
        ∧ (SpeechEngine.workerProcess s it).1.last_spoken = some it.text
        ∧ (SpeechEngine.workerProcess s it).1.last_spoken_ts = r + it.render_duration)
    ∧ (∀ (s : SpeechEngine) (it : WorkerItem),
        (SpeechEngine.workerProcess s it).2 = none →
        (SpeechEngine.workerProcess s it).1 = s)
    ∧ (∀ (s : SpeechEngine) (items : List WorkerItem),
        0 ≤ s.config.cooldown_seconds →
        (∀ it ∈ items, 0 ≤ it.render_duration) →
        List.Chain' (fun a b => a + s.config.cooldown_seconds ≤ b)
          (SpeechEngine.workerRun s items).2) := by
  refine ⟨?_, ?_, workerProcess_none_state, ?_⟩
  · intro s text e1 e2 now ok dur
    rfl
  · intro s it r h
    rcases workerProcess_some_spec s it r h with ⟨hr, hs⟩
    rw [hs]
    exact ⟨by rw [hr]; exact le_max_right _ _, by rw [hr]; exact le_max_left _ _, rfl, rfl⟩
  · intro s items hcd hdur
    exact (workerRun_spacing items s hcd hdur).2

/-- C6 (witness): two successful renders submitted in quick succession are
spaced by the cooldown along the worker run. -/
theorem worker_cooldown_spec_witness :
    List.Chain'
      (fun a b => a + (⟨⟨2, 30⟩, [], false, none, 0⟩ : SpeechEngine).config.cooldown_seconds ≤ b)
      (SpeechEngine.workerRun ⟨⟨2, 30⟩, [], false, none, 0⟩
        [⟨"eins", 0, 0, true, 0⟩, ⟨"zwei", 0, 1, true, 0⟩]).2 :=
  worker_cooldown_spec.2.2.2 ⟨⟨2, 30⟩, [], false, none, 0⟩
    [⟨"eins", 0, 0, true, 0⟩, ⟨"zwei", 0, 1, true, 0⟩]
    (by norm_num)
    (by
      intro it hit
      rcases List.mem_cons.1 hit with h | h
      · rw [h]
      · rcases List.mem_cons.1 h with h2 | h2
        · rw [h2]
        · exact absurd h2 (List.not_mem_nil it))

/-- C7: in identify mode, whenever the two most confident detections (after
the stable descending sort) carry different labels and their confidence gap
is below 0.05, the engine returns the ambiguous-result `Decision` with
confidence 0 and leaves the engine state — in particular the identify-mode
vote history — untouched, for every prior state. -/
theorem identify_ambiguous_spec (e : DecisionEngine) (detections : List Detection)
    (frame_shape : ℤ × ℤ × ℤ) (top second : Detection) (rest : List Detection)
    (hsort : sortByConfDesc detections = top :: second :: rest)
    (hlabel : top.label ≠ second.label)
    (hgap : top.conf - second.conf < 1/20) :
    (DecisionEngine.identify e detections frame_shape).1
        = DecisionEngine.uncertain
            "Mehrere Produkte erkannt, bitte nur ein Produkt ins Bild halten"
    ∧ (DecisionEngine.identify e detections frame_shape).1.conf = 0
    ∧ (DecisionEngine.identify e detections frame_shape).2 = e := by
  have hamb : ambiguousTop top (second :: rest) = true := by
    simp only [ambiguousTop]
    rw [if_pos ⟨hgap, hlabel⟩]
  rw [identify_eq_core e detections frame_shape top (second :: rest) hsort,
    identifyCore_ambiguous e top (second :: rest) frame_shape hamb]
  exact ⟨rfl, rfl, rfl⟩

/-- C7 (witness): detections `[(A, 0.9), (B, 0.87)]` (gap 0.03, differing
labels) produce the ambiguous answer on a fresh engine. -/
theorem identify_ambiguous_spec_witness :
    (DecisionEngine.identify DecisionEngine.init
        [⟨"A", 9/10, ⟨0, 0, 10, 10⟩⟩, ⟨"B", 87/100, ⟨30, 0, 40, 10⟩⟩]
        (480, 640, 3)).1
      = DecisionEngine.uncertain
          "Mehrere Produkte erkannt, bitte nur ein Produkt ins Bild halten" :=
  (identify_ambiguous_spec DecisionEngine.init
    [⟨"A", 9/10, ⟨0, 0, 10, 10⟩⟩, ⟨"B", 87/100, ⟨30, 0, 40, 10⟩⟩] (480, 640, 3)
    ⟨"A", 9/10, ⟨0, 0, 10, 10⟩⟩ ⟨"B", 87/100, ⟨30, 0, 40, 10⟩⟩ []
    (by norm_num [sortByConfDesc, insertByConfDesc])
    (by decide) (by norm_num)).1

/-- C8: the identify-mode smoothed confidence is the simple arithmetic mean
of the at most 5 most recent confidences (the trailing window of
`history ++ [new]`, which is shorter while the history is shorter), and
whenever — with the flow having passed the emptiness and ambiguity guards —
the smoothed confidence falls below `CONF_THRESHOLD − 0.05`, the engine
returns the "uncertain, move closer" `Decision` with confidence 0 before any
vote is recorded (the identify-mode aggregator is unchanged). -/
theorem identify_smoothing_spec :
    (∀ (e : DecisionEngine) (c : ℚ) (w : List ℚ),
        e.conf_history_identify.length ≤ 5 →
        w = (e.conf_history_identify ++ [c]).drop
          ((e.conf_history_identify ++ [c]).length - 5) →
        (DecisionEngine.smoothed_conf_identify e c).1 = w.sum / (w.length : ℚ)
        ∧ (DecisionEngine.smoothed_conf_identify e c).2.conf_history_identify = w)
    ∧ (∀ (e : DecisionEngine) (detections : List Detection)
        (frame_shape : ℤ × ℤ × ℤ) (top : Detection) (rest : List Detection),
        sortByConfDesc detections = top :: rest →
        ambiguousTop top rest = false →
        (DecisionEngine.smoothed_conf_identify e top.conf).1
            < CONF_THRESHOLD - 1/20 →
        (DecisionEngine.identify e detections frame_shape).1
            = DecisionEngine.uncertain "Unsicher, Kamera näher an das Produkt halten"
        ∧ (DecisionEngine.identify e detections frame_shape).1.conf = 0
        ∧ (DecisionEngine.identify e detections frame_shape).2.label_votes_identify
            = e.label_votes_identify) := by
  refine ⟨smoothed_conf_window, ?_⟩
  intro e detections fs top rest hsort hamb hsm
  rw [identify_eq_core e detections fs top rest hsort,
    identifyCore_low_conf e top rest fs hamb hsm]
  exact ⟨rfl, rfl, smoothed_conf_keeps_votes e top.conf⟩

/-- C8 (witness): with a full history of low confidences and another low
top confidence, identify reports "uncertain, move closer". -/
theorem identify_smoothing_spec_witness :
    (DecisionEngine.identify
        ⟨⟨10, []⟩, ⟨10, []⟩, [1/10, 1/10, 1/10, 1/10, 1/10]⟩
        [⟨"A", 1/10, ⟨0, 0, 10, 10⟩⟩] (480, 640, 3)).1
      = DecisionEngine.uncertain "Unsicher, Kamera näher an das Produkt halten" :=
  (identify_smoothing_spec.2
    ⟨⟨10, []⟩, ⟨10, []⟩, [1/10, 1/10, 1/10, 1/10, 1/10]⟩
    [⟨"A", 1/10, ⟨0, 0, 10, 10⟩⟩] (480, 640, 3)
    ⟨"A", 1/10, ⟨0, 0, 10, 10⟩⟩ []
    rfl rfl
    (by norm_num [DecisionEngine.smoothed_conf_identify, CONF_THRESHOLD])).1

/-- C9: `shutdown` is idempotent on the coordinator state (a second call is a
no-op); it sets the shutdown event, after which `can_speak` is false at every
time, `speak` is a no-op, `speak` never clears the event, and a worker
iteration under shutdown neither renders nor changes the state — so no
further utterance is enqueued or rendered. -/
theorem shutdown_idempotent_permanent :
    (∀ (s : SpeechEngine) (t1 t2 : ℚ),
        SpeechEngine.shutdown (SpeechEngine.shutdown s t1) t2
          = SpeechEngine.shutdown s t1)
    ∧ (∀ (s : SpeechEngine) (t : ℚ),
        (SpeechEngine.shutdown s t).shutdownRequested = true)
    ∧ (∀ (s : SpeechEngine) (now : ℚ), s.shutdownRequested = true →
        SpeechEngine.can_speak s now = false)
    ∧ (∀ (s : SpeechEngine) (text : String) (now : ℚ), s.shutdownRequested = true →
        SpeechEngine.speak s text now = s)
    ∧ (∀ (s : SpeechEngine) (text : String) (now : ℚ),
        (SpeechEngine.speak s text now).shutdownRequested = s.shutdownRequested)
    ∧ (∀ (s : SpeechEngine) (it : WorkerItem), s.shutdownRequested = true →
        SpeechEngine.workerProcess s it = (s, none)) := by
  have hflag : ∀ (s : SpeechEngine) (t : ℚ),
      (SpeechEngine.shutdown s t).shutdownRequested = true := by
    intro s t
    rw [SpeechEngine.shutdown]
    split_ifs with h1
    · exact h1
    · dsimp only
      split_ifs <;> rfl
  refine ⟨?_, hflag, ?_, ?_, ?_, ?_⟩
  · intro s t1 t2
    rw [SpeechEngine.shutdown, if_pos (hflag s t1)]
  · intro s now h
    rw [SpeechEngine.can_speak, if_pos h]
  · intro s text now h
    simp only [SpeechEngine.speak]
    rw [if_pos (Or.inr h)]
  · intro s text now
    simp only [SpeechEngine.speak]
    split_ifs <;> rfl
  · intro s it h
    rw [SpeechEngine.workerProcess, if_pos h]

/-- C9 (witness): the idempotence, dead `can_speak` and dead `speak` on
concrete shutdown states. -/
theorem shutdown_idempotent_permanent_witness :
    SpeechEngine.shutdown (SpeechEngine.shutdown ⟨⟨2, 30⟩, [], false, none, 0⟩ 1) 2
        = SpeechEngine.shutdown ⟨⟨2, 30⟩, [], false, none, 0⟩ 1
    ∧ SpeechEngine.can_speak ⟨⟨2, 30⟩, [], true, none, 0⟩ 100 = false
    ∧ SpeechEngine.speak ⟨⟨2, 30⟩, [], true, none, 0⟩ "hallo" 100
        = ⟨⟨2, 30⟩, [], true, none, 0⟩ :=
  ⟨shutdown_idempotent_permanent.1 ⟨⟨2, 30⟩, [], false, none, 0⟩ 1 2,
   shutdown_idempotent_permanent.2.2.1 ⟨⟨2, 30⟩, [], true, none, 0⟩ 100 rfl,
   shutdown_idempotent_permanent.2.2.2.1 ⟨⟨2, 30⟩, [], true, none, 0⟩ "hallo" 100 rfl⟩

/-- C10: in count mode, whenever the duplicate/confidence filter keeps at
least one detection, the chosen label tallies at least 1 in the frame, so the
`count == 0` branch ("Unsicher beim Zaehlen, bitte leicht die Perspektive
aendern") is unreachable and the spoken text carries a count of at least 1. -/
theorem count_positive_when_filtered (e : DecisionEngine) (detections : List Detection)
    (hf : countFilter detections ≠ []) :
    ∃ n : ℕ, 1 ≤ n
      ∧ (DecisionEngine.count e detections).1.text_to_say
          = toString n ++ " " ++ countChosenLabel e detections
      ∧ (DecisionEngine.count e detections).1
          ≠ DecisionEngine.uncertain
              "Unsicher beim Zaehlen, bitte leicht die Perspektive aendern" := by
  refine ⟨((countFilter detections).map Detection.label).count
      (countChosenLabel e detections),
    countChosenLabel_count_pos e detections hf, ?_, ?_⟩
  · rw [count_success e detections hf]
  · rw [count_success e detections hf]
    intro hcontra
    have hconf := congrArg Decision.conf hcontra
    simp only [DecisionEngine.uncertain] at hconf
    by_cases hst : ((e.label_votes_count.add (dominantLabel
        ((countFilter detections).map Detection.label))).majority VOTE_MIN).isSome = true
    · rw [if_pos hst] at hconf
      norm_num at hconf
    · rw [if_neg hst] at hconf
      norm_num at hconf

/-- C10 (witness): a single confident apple detection yields a positive
spoken count. -/
theorem count_positive_when_filtered_witness :
    ∃ n : ℕ, 1 ≤ n
      ∧ (DecisionEngine.count DecisionEngine.init
          [⟨"apple", 9/10, ⟨0, 0, 10, 10⟩⟩]).1.text_to_say
          = toString n ++ " " ++ countChosenLabel DecisionEngine.init
              [⟨"apple", 9/10, ⟨0, 0, 10, 10⟩⟩]
      ∧ (DecisionEngine.count DecisionEngine.init
          [⟨"apple", 9/10, ⟨0, 0, 10, 10⟩⟩]).1
          ≠ DecisionEngine.uncertain
              "Unsicher beim Zaehlen, bitte leicht die Perspektive aendern" :=
  count_positive_when_filtered DecisionEngine.init [⟨"apple", 9/10, ⟨0, 0, 10, 10⟩⟩]
    (by norm_num [countFilter, sortByConfDesc, insertByConfDesc, countFilterStep,
      DecisionEngine.has_significant_overlap, CONF_THRESHOLD])
